import Mathlib

/-!
Shallow embedding of the BETRAYAL card-game engine (src/card.py): deck
construction (make_new_deck), session creation (create_game_for_players),
the card-effect engine (play_card, lines 661-800 of the source), the win
predicate (winner_by_killer) and the matchmaking queue (join_queue).

Modelling conventions, faithful to the source:
- Randomness (random.shuffle, random.choice) is made explicit through an
  Rng parameter carrying a shuffle function on card lists and a choice
  index; a uniform shuffle can produce any permutation, so theorems that
  need it assume the shuffle is length-preserving, and counterexamples
  instantiate it with a concrete permutation.
- Player ids are the sqlite AUTOINCREMENT user ids, modelled as Nat; the
  database allocates them from 1, and Python truthiness of an optional id
  (used by the source in "if g['killer']" and "if target_id and ...") is
  captured by truthyId / the "t ≠ 0" conjunct of the target checks.
- The target parameter is the already-resolved target player id
  (get_userid_by_username applied to the posted username); none stands
  for "no target username provided".
- Log strings are modelled by the LogEntry inductive, one constructor per
  distinct message shape produced by the source.
- Python list.remove removes the first matching element (List.erase),
  list.pop() pops from the end (getLast? / dropLast), list.pop(0) pops
  from the front (take / drop).
-/

inductive Card where
  | statecard
  | searchcard
  | shieldcard
  | takecard
  | exchangecard
  | judgecard
  | killcard
  | accusatecard
deriving DecidableEq, Repr

abbrev PlayerId := Nat

inductive Winner where
  | killer
  | faithfuls
deriving DecidableEq, Repr

inductive LogEntry where
  | playedState (actor : PlayerId)
  | searched (actor : PlayerId) (drawn : Nat)
  | equippedShield (actor : PlayerId)
  | tookCard (actor target : PlayerId)
  | noCardsToTake (target : PlayerId)
  | invalidTargetTake
  | noTargetTake
  | exchanged (actor target : PlayerId)
  | invalidTargetExchange
  | noTargetExchange
  | playedJudge (actor : PlayerId)
  | accusedCorrect (actor target : PlayerId)
  | accusedWrong (actor : PlayerId)
  | invalidTargetAccusation
  | noTargetAccusation
  | shieldBroke (actor target : PlayerId)
  | killed (actor target : PlayerId)
  | invalidTargetKill
  | noTargetKill
deriving DecidableEq, Repr

/-- Explicit source of randomness: the shuffle used by random.shuffle and
the index used by random.choice (taken modulo the list length). -/
structure Rng where
  shuffle : List Card → List Card
  choose : List Card → Nat

/-- MATCH_SIZE = 5 (src/card.py line 38). -/
def MATCH_SIZE : Nat := 5

/-- The fixed 32-card pool built by make_new_deck before shuffling:
5 copies of each of the six main cards plus one killcard and one
accusatecard (src/card.py lines 75-81). -/
def fresh_deck_pool : List Card :=
  List.replicate 5 Card.statecard ++ List.replicate 5 Card.searchcard ++
  List.replicate 5 Card.shieldcard ++ List.replicate 5 Card.takecard ++
  List.replicate 5 Card.exchangecard ++ List.replicate 5 Card.judgecard ++
  [Card.killcard, Card.accusatecard]

/-- make_new_deck: the fixed pool, shuffled (src/card.py lines 75-81). -/
def make_new_deck (rng : Rng) : List Card :=
  rng.shuffle fresh_deck_pool

/-- The full state of one game session (the dict built by
create_game_for_players, src/card.py lines 148-161; the id and
started_at fields carry no game logic and are omitted).  Hands are a
total function defaulting to [] for non-participants, mirroring
g['hands'].get(pid, []). -/
structure GameState where
  players : List PlayerId
  alive : List PlayerId
  hands : PlayerId → List Card
  deck : List Card
  used : List Card
  killer : Option PlayerId
  shields_equipped : List PlayerId
  log : List LogEntry
  finished : Bool
  winner : Option Winner

/-- Pointwise update of the hands map (assignment to g['hands'][p]). -/
def updateHand (h : PlayerId → List Card) (p : PlayerId) (v : List Card) :
    PlayerId → List Card :=
  fun q => if q = p then v else h q

/-- winner_by_killer (src/card.py lines 507-513): the killer wins when it
is set, alive, and no one else is alive. -/
def winner_by_killer (alive : List PlayerId) (killer : Option PlayerId) : Bool :=
  match killer with
  | none => false
  | some k =>
      if k ∈ alive ∧ (alive.filter (fun p => p != k)).length = 0 then true
      else false

/-- Python truthiness of an optional player id: None and 0 are falsy
(used in "if g['killer'] and ..." at line 794). -/
def truthyId : Option PlayerId → Bool
  | none => false
  | some k => k != 0

/-- The end-of-play win evaluation (src/card.py lines 793-799). -/
def end_check (g : GameState) : GameState :=
  if truthyId g.killer && winner_by_killer g.alive g.killer then
    { g with finished := true, winner := some Winner.killer }
  else if g.killer.isNone && g.players.all (fun p => (g.hands p).isEmpty) then
    { g with finished := true, winner := some Winner.faithfuls }
  else g

/-- random.choice from a non-empty list, driven by the Rng index; the
default is never used on a non-empty list. -/
def pickCard (l : List Card) (i : Nat) : Card :=
  l.getD (i % l.length) Card.statecard

/-- One iteration of the SEARCH draw loop (src/card.py lines 691-698):
if the deck is empty, the used pile is reshuffled into the deck; then, if
the deck is non-empty, one card is popped from its end into the draws. -/
def draw_step (rng : Rng) (s : List Card × List Card × List Card) :
    List Card × List Card × List Card :=
  let deck := if s.1.isEmpty then rng.shuffle s.2.1 else s.1
  let used := if s.1.isEmpty then [] else s.2.1
  match deck.getLast? with
  | none => (deck, used, s.2.2)
  | some c => (deck.dropLast, used, s.2.2 ++ [c])

/-- The per-card effect of play_card after the played card has been
removed from the actor's hand (src/card.py lines 682-791). -/
def apply_effect (rng : Rng) (g : GameState) (uid : PlayerId) (card : Card)
    (target : Option PlayerId) : GameState :=
  match card with
  | Card.statecard =>
      { g with log := g.log ++ [LogEntry.playedState uid],
               used := g.used ++ [Card.statecard] }
  | Card.searchcard =>
      let st := draw_step rng (draw_step rng (draw_step rng
        (g.deck, g.used ++ [Card.searchcard], ([] : List Card))))
      { g with deck := st.1,
               used := st.2.1,
               hands := updateHand g.hands uid (g.hands uid ++ st.2.2),
               log := g.log ++ [LogEntry.searched uid st.2.2.length] }
  | Card.shieldcard =>
      { g with shields_equipped :=
                 if uid ∈ g.shields_equipped then g.shields_equipped
                 else g.shields_equipped ++ [uid],
               log := g.log ++ [LogEntry.equippedShield uid] }
  | Card.takecard =>
      let g := { g with used := g.used ++ [Card.takecard] }
      match target with
      | none => { g with log := g.log ++ [LogEntry.noTargetTake] }
      | some t =>
          if t ≠ 0 ∧ t ∈ g.alive ∧ t ≠ uid then
            if (g.hands t).isEmpty then
              { g with log := g.log ++ [LogEntry.noCardsToTake t] }
            else
              let taken := pickCard (g.hands t) (rng.choose (g.hands t))
              { g with hands := updateHand
                         (updateHand g.hands t ((g.hands t).erase taken)) uid
                         (g.hands uid ++ [taken]),
                       log := g.log ++ [LogEntry.tookCard uid t] }
          else { g with log := g.log ++ [LogEntry.invalidTargetTake] }
  | Card.exchangecard =>
      let g := { g with used := g.used ++ [Card.exchangecard] }
      match target with
      | none => { g with log := g.log ++ [LogEntry.noTargetExchange] }
      | some t =>
          if t ≠ 0 ∧ t ∈ g.alive ∧ t ≠ uid then
            { g with hands := updateHand
                       (updateHand g.hands uid (g.hands t)) t (g.hands uid),
                     log := g.log ++ [LogEntry.exchanged uid t] }
          else { g with log := g.log ++ [LogEntry.invalidTargetExchange] }
  | Card.judgecard =>
      { g with log := g.log ++ [LogEntry.playedJudge uid],
               used := g.used ++ [Card.judgecard] }
  | Card.accusatecard =>
      let g := { g with used := g.used ++ [Card.accusatecard] }
      match target with
      | none => { g with log := g.log ++ [LogEntry.noTargetAccusation] }
      | some t =>
          if t ≠ 0 ∧ t ∈ g.alive then
            if g.killer = some t then
              { g with alive := g.alive.erase t,
                       used := g.used ++ g.hands t,
                       hands := updateHand g.hands t [],
                       log := g.log ++ [LogEntry.accusedCorrect uid t],
                       killer := none,
                       finished := true,
                       winner := some Winner.faithfuls }
            else
              { g with alive := g.alive.erase uid,
                       used := g.used ++ g.hands uid,
                       hands := updateHand g.hands uid [],
                       log := g.log ++ [LogEntry.accusedWrong uid] }
          else { g with log := g.log ++ [LogEntry.invalidTargetAccusation] }
  | Card.killcard =>
      let g := { g with used := g.used ++ [Card.killcard], killer := some uid }
      match target with
      | none => { g with log := g.log ++ [LogEntry.noTargetKill] }
      | some t =>
          if t ≠ 0 ∧ t ∈ g.alive ∧ t ≠ uid then
            if t ∈ g.shields_equipped then
              { g with shields_equipped := g.shields_equipped.erase t,
                       hands := updateHand g.hands uid
                         (g.hands uid ++ [Card.shieldcard]),
                       log := g.log ++ [LogEntry.shieldBroke uid t] }
            else
              { g with alive := g.alive.erase t,
                       used := g.used ++ g.hands t,
                       hands := updateHand g.hands t [],
                       log := g.log ++ [LogEntry.killed uid t] }
          else { g with log := g.log ++ [LogEntry.invalidTargetKill] }

/-- play_card (src/card.py lines 661-800): after the membership, alive
and card-held checks, the played card is removed from the actor's hand,
its effect is applied, and the win conditions are evaluated.  A failing
check returns the state unchanged (the Flask handler redirects without
touching the game). -/
def play_card (rng : Rng) (g : GameState) (uid : PlayerId) (card : Card)
    (target : Option PlayerId) : GameState :=
  if uid ∈ g.players then
    if uid ∈ g.alive then
      if card ∈ g.hands uid then
        end_check (apply_effect rng
          { g with hands := updateHand g.hands uid ((g.hands uid).erase card) }
          uid card target)
      else g
    else g
  else g

/-- Pop n cards from the end of the deck (the dealing loop
[deck.pop() for _ in range(3)], src/card.py line 141); returns the popped
cards in pop order and the remaining deck. -/
def pop_draws : Nat → List Card → List Card × List Card
  | 0, d => ([], d)
  | n + 1, d =>
      match d.getLast? with
      | none => ([], d)
      | some c =>
          let r := pop_draws n d.dropLast
          (c :: r.1, r.2)

/-- Deal three cards to each player in order (src/card.py lines 140-141). -/
def deal_hands : List PlayerId → (PlayerId → List Card) → List Card →
    (PlayerId → List Card) × List Card
  | [], hands, deck => (hands, deck)
  | p :: ps, hands, deck =>
      let r := pop_draws 3 deck
      deal_hands ps (updateHand hands p r.1) r.2

/-- create_game_for_players (src/card.py lines 133-165): deal three cards
to each player from the given (already shuffled) deck, and set the killer
to the first player holding the killcard, if any. -/
def create_game_for_players (deck0 : List Card) (player_ids : List PlayerId) :
    GameState :=
  let r := deal_hands player_ids (fun _ => []) deck0
  { players := player_ids
    alive := player_ids
    hands := r.1
    deck := r.2
    used := []
    killer := player_ids.find? (fun p => (r.1 p).contains Card.killcard)
    shields_equipped := []
    log := []
    finished := false
    winner := none }

/-- The drain step of join_queue (src/card.py lines 568-572): when the
queue has reached MATCH_SIZE, the first MATCH_SIZE entries are dequeued
(list.pop(0) repeated) and handed to game creation. -/
def join_drain (q : List PlayerId) : List PlayerId × Option (List PlayerId) :=
  if MATCH_SIZE ≤ q.length then (q.drop MATCH_SIZE, some (q.take MATCH_SIZE))
  else (q, none)

/-- join_queue (src/card.py lines 559-572): append the player if not yet
queued, then drain when the queue has reached MATCH_SIZE.  Returns the
remaining queue and, when a match formed, its participant list. -/
def join_queue (q : List PlayerId) (uid : PlayerId) :
    List PlayerId × Option (List PlayerId) :=
  join_drain (if uid ∈ q then q else q ++ [uid])

/-- Total card count of a session: deck plus all participants' hands plus
the used pile (the quantity the spec claims is conserved at 32). -/
def handSum (h : PlayerId → List Card) (ps : List PlayerId) : Nat :=
  (ps.map (fun p => (h p).length)).sum

/-- Number of cards in the deck, all hands, and the used pile. -/
def cardCount (g : GameState) : Nat :=
  g.deck.length + handSum g.hands g.players + g.used.length

/-- Condition under which a KILL play breaks a shield instead of
eliminating the target (src/card.py lines 772-778). -/
def shieldBreakCond (g : GameState) (uid : PlayerId)
    (target : Option PlayerId) : Prop :=
  match target with
  | none => False
  | some t => t ≠ 0 ∧ t ∈ g.alive ∧ t ≠ uid ∧ t ∈ g.shields_equipped

/-- A deterministic Rng instance used for concrete executions: the
shuffle is the identity permutation and choice always picks index 0. -/
def rng0 : Rng :=
  { shuffle := fun l => l, choose := fun _ => 0 }

/-! Concrete states used by counterexamples and witnesses.  d0 is one
possible shuffle of the 32-card pool (verified as a permutation of
fresh_deck_pool below); dealing pops from the end, so player 1 receives
the last three cards, player 2 the three before them, and so on. -/

/-- A concrete shuffled deck: a permutation of the 32-card pool. -/
def d0 : List Card :=
  [Card.statecard, Card.statecard, Card.statecard,
   Card.searchcard, Card.searchcard, Card.searchcard,
   Card.shieldcard, Card.shieldcard, Card.shieldcard,
   Card.takecard,
   Card.exchangecard, Card.exchangecard, Card.exchangecard, Card.exchangecard,
   Card.judgecard, Card.judgecard, Card.judgecard,
   Card.statecard, Card.searchcard, Card.accusatecard,
   Card.shieldcard, Card.exchangecard, Card.killcard,
   Card.judgecard, Card.judgecard, Card.takecard,
   Card.takecard, Card.takecard, Card.takecard,
   Card.searchcard, Card.statecard, Card.shieldcard]

/-- A freshly created session over deck d0 for players 1..5; player 1
holds a SHIELD, player 2 three TAKE cards, player 4 the KILL card (so
killer = 4), player 5 the ACCUSATION. -/
def g0 : GameState := create_game_for_players d0 [1, 2, 3, 4, 5]

/-- The session after player 2 TAKEs from player 3 three times: player 3
is alive with an empty hand. -/
def g7 : GameState :=
  play_card rng0 (play_card rng0 (play_card rng0 g0 2 Card.takecard (some 3))
    2 Card.takecard (some 3)) 2 Card.takecard (some 3)

/-- An active session in which the killer field is 1 but player 2 holds
the KILL card (the card can change hands through EXCHANGE and TAKE
without the killer field following it); players 3, 4, 5 are already
eliminated, their hands in the used pile. -/
def gC4 : GameState :=
  { players := [1, 2, 3, 4, 5]
    alive := [1, 2]
    hands := fun p =>
      if p = 1 then [Card.statecard]
      else if p = 2 then [Card.killcard, Card.statecard] else []
    deck := List.replicate 5 Card.searchcard ++ List.replicate 5 Card.shieldcard
      ++ List.replicate 4 Card.takecard
    used := [Card.takecard] ++ List.replicate 5 Card.exchangecard
      ++ List.replicate 5 Card.judgecard ++ [Card.accusatecard]
      ++ List.replicate 3 Card.statecard
    killer := some 1
    shields_equipped := []
    log := []
    finished := false
    winner := none }

/-- A finished session (killer victory) in which the sole survivor still
holds a card. -/
def gC2 : GameState := play_card rng0 gC4 2 Card.killcard (some 1)

/-- The g0 session after player 1 equips a shield. -/
def gW5 : GameState := play_card rng0 g0 1 Card.shieldcard none

/-! Basic lemmas about the embedding. -/

theorem updateHand_same (h : PlayerId → List Card) (p : PlayerId)
    (v : List Card) : updateHand h p v p = v := by
  simp [updateHand]

theorem updateHand_other (h : PlayerId → List Card) (p q : PlayerId)
    (v : List Card) (hq : q ≠ p) : updateHand h p v q = h q := by
  simp [updateHand, hq]

theorem end_check_players (g : GameState) : (end_check g).players = g.players := by
  unfold end_check
  split
  · rfl
  split
  · rfl
  rfl

theorem end_check_alive (g : GameState) : (end_check g).alive = g.alive := by
  unfold end_check
  split
  · rfl
  split
  · rfl
  rfl

theorem end_check_hands (g : GameState) : (end_check g).hands = g.hands := by
  unfold end_check
  split
  · rfl
  split
  · rfl
  rfl

theorem end_check_deck (g : GameState) : (end_check g).deck = g.deck := by
  unfold end_check
  split
  · rfl
  split
  · rfl
  rfl

theorem end_check_used (g : GameState) : (end_check g).used = g.used := by
  unfold end_check
  split
  · rfl
  split
  · rfl
  rfl

theorem end_check_killer (g : GameState) : (end_check g).killer = g.killer := by
  unfold end_check
  split
  · rfl
  split
  · rfl
  rfl

theorem end_check_shields (g : GameState) :
    (end_check g).shields_equipped = g.shields_equipped := by
  unfold end_check
  split
  · rfl
  split
  · rfl
  rfl

theorem end_check_log (g : GameState) : (end_check g).log = g.log := by
  unfold end_check
  split
  · rfl
  split
  · rfl
  rfl

theorem cardCount_end_check (g : GameState) :
    cardCount (end_check g) = cardCount g := by
  unfold end_check
  split
  · rfl
  split
  · rfl
  rfl

theorem play_card_checks_pass (rng : Rng) (g : GameState) (uid : PlayerId)
    (card : Card) (target : Option PlayerId)
    (hp : uid ∈ g.players) (ha : uid ∈ g.alive) (hc : card ∈ g.hands uid) :
    play_card rng g uid card target =
      end_check (apply_effect rng
        { g with hands := updateHand g.hands uid ((g.hands uid).erase card) }
        uid card target) := by
  unfold play_card
  rw [if_pos hp, if_pos ha, if_pos hc]

theorem handSum_cons (h : PlayerId → List Card) (p : PlayerId)
    (ps : List PlayerId) : handSum h (p :: ps) = (h p).length + handSum h ps := by
  simp [handSum]

theorem handSum_congr (ps : List PlayerId) (h h₂ : PlayerId → List Card)
    (he : ∀ p, p ∈ ps → h p = h₂ p) : handSum h ps = handSum h₂ ps := by
  induction ps with
  | nil => rfl
  | cons p ps ih =>
      rw [handSum_cons, handSum_cons, he p (by simp),
        ih (fun q hq => he q (by simp [hq]))]

theorem handSum_update (ps : List PlayerId) (h : PlayerId → List Card)
    (p : PlayerId) (v : List Card) (hnd : ps.Nodup) (hp : p ∈ ps) :
    handSum (updateHand h p v) ps + (h p).length = handSum h ps + v.length := by
  induction ps with
  | nil => cases hp
  | cons q ps ih =>
      rw [handSum_cons, handSum_cons]
      by_cases hq : q = p
      · subst hq
        rw [updateHand_same]
        have hnot : q ∉ ps := (List.nodup_cons.mp hnd).1
        have heq : handSum (updateHand h q v) ps = handSum h ps :=
          handSum_congr ps _ _
            (fun r hr => updateHand_other h q r v (fun he => hnot (he ▸ hr)))
        omega
      · have hp2 : p ∈ ps := by
          rcases List.mem_cons.mp hp with h1 | h2
          · exact absurd h1.symm hq
          · exact h2
        rw [updateHand_other h p q v hq]
        have := ih (List.nodup_cons.mp hnd).2 hp2
        omega

theorem pickCard_mem (l : List Card) (i : Nat) (hne : l ≠ []) :
    pickCard l i ∈ l := by
  have hlt : i % l.length < l.length := Nat.mod_lt _ (List.length_pos.mpr hne)
  unfold pickCard
  rw [List.getD_eq_getElem?_getD, List.getElem?_eq_getElem hlt]
  simp

theorem draw_step_count (rng : Rng)
    (hshuf : ∀ l, (rng.shuffle l).length = l.length)
    (s : List Card × List Card × List Card) :
    (draw_step rng s).1.length + (draw_step rng s).2.1.length
      + (draw_step rng s).2.2.length
      = s.1.length + s.2.1.length + s.2.2.length := by
  unfold draw_step
  by_cases he : s.1.isEmpty
  · have h1 : s.1 = [] := List.isEmpty_iff.mp he
    simp only [he, if_true]
    cases hl : (rng.shuffle s.2.1).getLast? with
    | none =>
        have : rng.shuffle s.2.1 = [] := List.getLast?_eq_none_iff.mp hl
        have := hshuf s.2.1
        simp only [h1]
        simp_all
    | some c =>
        have hne : rng.shuffle s.2.1 ≠ [] := by
          intro h2
          rw [h2] at hl
          simp at hl
        have hlen := hshuf s.2.1
        have hpos : 0 < (rng.shuffle s.2.1).length := List.length_pos.mpr hne
        simp only [h1]
        simp [List.length_dropLast]
        omega
  · simp only [he, if_false]
    cases hl : s.1.getLast? with
    | none =>
        have : s.1 = [] := List.getLast?_eq_none_iff.mp hl
        simp_all
    | some c =>
        have hne : s.1 ≠ [] := by
          intro h2
          rw [h2] at hl
          simp at hl
        have hpos : 0 < s.1.length := List.length_pos.mpr hne
        simp [hl, List.length_dropLast]
        omega

theorem winner_by_killer_true_iff (alive : List PlayerId) (k : PlayerId) :
    winner_by_killer alive (some k) = true ↔
      k ∈ alive ∧ (alive.filter (fun p => p != k)).length = 0 := by
  by_cases hc : k ∈ alive ∧ (alive.filter (fun p => p != k)).length = 0 <;>
    simp [winner_by_killer, hc]

theorem winner_by_killer_singleton (k : PlayerId) :
    winner_by_killer [k] (some k) = true := by
  simp [winner_by_killer]

theorem nodup_filter_eq_singleton (l : List PlayerId) (k : PlayerId)
    (hnd : l.Nodup) (hk : k ∈ l)
    (hf : (l.filter (fun p => p != k)).length = 0) : l = [k] := by
  have hfe : l.filter (fun p => p != k) = [] := List.length_eq_zero.mp hf
  have hall : ∀ p, p ∈ l → p = k := by
    intro p hp
    by_contra hne
    have hmem : p ∈ l.filter (fun p => p != k) := by
      rw [List.mem_filter]
      exact ⟨hp, by simpa using hne⟩
    rw [hfe] at hmem
    cases hmem
  cases l with
  | nil => cases hk
  | cons a l2 =>
      have ha : a = k := hall a (by simp)
      subst ha
      have h2 : l2 = [] := by
        cases l2 with
        | nil => rfl
        | cons b l3 =>
            have hb : b = a := hall b (by simp)
            have hnm : a ∉ (b :: l3) := (List.nodup_cons.mp hnd).1
            subst hb
            simp at hnm
      rw [h2]

theorem end_check_eq_of_cond (g : GameState)
    (h : (truthyId g.killer && winner_by_killer g.alive g.killer) = true) :
    end_check g = { g with finished := true, winner := some Winner.killer } := by
  unfold end_check
  rw [if_pos h]

theorem end_check_killer_winner (g : GameState)
    (hw : (end_check g).winner = some Winner.killer)
    (hne : g.winner ≠ some Winner.killer) :
    (truthyId g.killer && winner_by_killer g.alive g.killer) = true := by
  by_contra hb
  unfold end_check at hw
  rw [if_neg hb] at hw
  split at hw
  · simp at hw
  · exact hne hw

theorem apply_effect_winner (rng : Rng) (g : GameState) (uid : PlayerId)
    (card : Card) (target : Option PlayerId) :
    (apply_effect rng g uid card target).winner = g.winner ∨
    ((apply_effect rng g uid card target).winner = some Winner.faithfuls ∧
      (apply_effect rng g uid card target).killer = none) := by
  cases card
  case statecard => exact Or.inl rfl
  case searchcard => exact Or.inl rfl
  case shieldcard => exact Or.inl rfl
  case judgecard => exact Or.inl rfl
  case takecard =>
    cases target with
    | none => exact Or.inl rfl
    | some t =>
        simp only [apply_effect]
        split
        · split
          · exact Or.inl rfl
          · exact Or.inl rfl
        · exact Or.inl rfl
  case exchangecard =>
    cases target with
    | none => exact Or.inl rfl
    | some t =>
        simp only [apply_effect]
        split
        · exact Or.inl rfl
        · exact Or.inl rfl
  case accusatecard =>
    cases target with
    | none => exact Or.inl rfl
    | some t =>
        simp only [apply_effect]
        split
        · split
          · exact Or.inr ⟨rfl, rfl⟩
          · exact Or.inl rfl
        · exact Or.inl rfl
  case killcard =>
    cases target with
    | none => exact Or.inl rfl
    | some t =>
        simp only [apply_effect]
        split
        · split
          · exact Or.inl rfl
          · exact Or.inl rfl
        · exact Or.inl rfl

theorem apply_effect_alive (rng : Rng) (g : GameState) (uid : PlayerId)
    (card : Card) (target : Option PlayerId) :
    (apply_effect rng g uid card target).alive = g.alive ∨
    ∃ x, (apply_effect rng g uid card target).alive = g.alive.erase x := by
  cases card
  case statecard => exact Or.inl rfl
  case searchcard => exact Or.inl rfl
  case shieldcard => exact Or.inl rfl
  case judgecard => exact Or.inl rfl
  case takecard =>
    cases target with
    | none => exact Or.inl rfl
    | some t =>
        simp only [apply_effect]
        split
        · split
          · exact Or.inl rfl
          · exact Or.inl rfl
        · exact Or.inl rfl
  case exchangecard =>
    cases target with
    | none => exact Or.inl rfl
    | some t =>
        simp only [apply_effect]
        split
        · exact Or.inl rfl
        · exact Or.inl rfl
  case accusatecard =>
    cases target with
    | none => exact Or.inl rfl
    | some t =>
        simp only [apply_effect]
        split
        · split
          · exact Or.inr ⟨t, rfl⟩
          · exact Or.inr ⟨uid, rfl⟩
        · exact Or.inl rfl
  case killcard =>
    cases target with
    | none => exact Or.inl rfl
    | some t =>
        simp only [apply_effect]
        split
        · split
          · exact Or.inl rfl
          · exact Or.inr ⟨t, rfl⟩
        · exact Or.inl rfl

theorem count_play_statecard (rng : Rng) (g : GameState) (uid : PlayerId)
    (target : Option PlayerId) (hnd : g.players.Nodup)
    (hp : uid ∈ g.players) (ha : uid ∈ g.alive)
    (hc : Card.statecard ∈ g.hands uid) :
    cardCount (play_card rng g uid Card.statecard target) = cardCount g := by
  rw [play_card_checks_pass rng g uid Card.statecard target hp ha hc,
    cardCount_end_check]
  have hS := handSum_update g.players g.hands uid
    ((g.hands uid).erase Card.statecard) hnd hp
  have hE := List.length_erase_add_one hc
  simp only [apply_effect, cardCount]
  simp only [List.length_append, List.length_cons, List.length_nil]
  omega

theorem count_play_judgecard (rng : Rng) (g : GameState) (uid : PlayerId)
    (target : Option PlayerId) (hnd : g.players.Nodup)
    (hp : uid ∈ g.players) (ha : uid ∈ g.alive)
    (hc : Card.judgecard ∈ g.hands uid) :
    cardCount (play_card rng g uid Card.judgecard target) = cardCount g := by
  rw [play_card_checks_pass rng g uid Card.judgecard target hp ha hc,
    cardCount_end_check]
  have hS := handSum_update g.players g.hands uid
    ((g.hands uid).erase Card.judgecard) hnd hp
  have hE := List.length_erase_add_one hc
  simp only [apply_effect, cardCount]
  simp only [List.length_append, List.length_cons, List.length_nil]
  omega

theorem count_play_shieldcard (rng : Rng) (g : GameState) (uid : PlayerId)
    (target : Option PlayerId) (hnd : g.players.Nodup)
    (hp : uid ∈ g.players) (ha : uid ∈ g.alive)
    (hc : Card.shieldcard ∈ g.hands uid) :
    cardCount (play_card rng g uid Card.shieldcard target) + 1 = cardCount g := by
  rw [play_card_checks_pass rng g uid Card.shieldcard target hp ha hc,
    cardCount_end_check]
  have hS := handSum_update g.players g.hands uid
    ((g.hands uid).erase Card.shieldcard) hnd hp
  have hE := List.length_erase_add_one hc
  simp only [apply_effect, cardCount]
  omega

theorem count_play_searchcard (rng : Rng) (g : GameState) (uid : PlayerId)
    (target : Option PlayerId)
    (hshuf : ∀ l, (rng.shuffle l).length = l.length)
    (hnd : g.players.Nodup)
    (hp : uid ∈ g.players) (ha : uid ∈ g.alive)
    (hc : Card.searchcard ∈ g.hands uid) :
    cardCount (play_card rng g uid Card.searchcard target) = cardCount g := by
  rw [play_card_checks_pass rng g uid Card.searchcard target hp ha hc,
    cardCount_end_check]
  simp only [apply_effect, cardCount]
  rw [updateHand_same]
  have hd1 := draw_step_count rng hshuf
    (g.deck, g.used ++ [Card.searchcard], ([] : List Card))
  have hd2 := draw_step_count rng hshuf
    (draw_step rng (g.deck, g.used ++ [Card.searchcard], ([] : List Card)))
  have hd3 := draw_step_count rng hshuf
    (draw_step rng (draw_step rng
      (g.deck, g.used ++ [Card.searchcard], ([] : List Card))))
  have hS1 := handSum_update g.players g.hands uid
    ((g.hands uid).erase Card.searchcard) hnd hp
  have hS2 := handSum_update g.players
    (updateHand g.hands uid ((g.hands uid).erase Card.searchcard)) uid
    ((g.hands uid).erase Card.searchcard ++
      (draw_step rng (draw_step rng (draw_step rng
        (g.deck, g.used ++ [Card.searchcard], ([] : List Card))))).2.2)
    hnd hp
  rw [updateHand_same] at hS2
  have hE := List.length_erase_add_one hc
  simp only [List.length_append, List.length_cons, List.length_nil] at *
  omega

theorem count_play_takecard (rng : Rng) (g : GameState) (uid : PlayerId)
    (target : Option PlayerId) (hnd : g.players.Nodup)
    (hsub : ∀ p, p ∈ g.alive → p ∈ g.players)
    (hp : uid ∈ g.players) (ha : uid ∈ g.alive)
    (hc : Card.takecard ∈ g.hands uid) :
    cardCount (play_card rng g uid Card.takecard target) = cardCount g := by
  rw [play_card_checks_pass rng g uid Card.takecard target hp ha hc,
    cardCount_end_check]
  have hS1 := handSum_update g.players g.hands uid
    ((g.hands uid).erase Card.takecard) hnd hp
  have hE := List.length_erase_add_one hc
  cases target with
  | none =>
      simp only [apply_effect, cardCount]
      simp only [List.length_append, List.length_cons, List.length_nil]
      omega
  | some t =>
      simp only [apply_effect, cardCount]
      split
      next hcond =>
        obtain ⟨ht0, hta, htu⟩ := hcond
        rw [updateHand_other g.hands uid t ((g.hands uid).erase Card.takecard) htu]
        split
        next hemp =>
          simp only [List.length_append, List.length_cons, List.length_nil]
          omega
        next hemp =>
          have hne : g.hands t ≠ [] := by
            intro h2
            exact hemp (by simp [h2])
          have htk := pickCard_mem (g.hands t) (rng.choose (g.hands t)) hne
          have hE2 := List.length_erase_add_one htk
          rw [updateHand_same]
          have hS2 := handSum_update g.players
            (updateHand g.hands uid ((g.hands uid).erase Card.takecard)) t
            ((g.hands t).erase (pickCard (g.hands t) (rng.choose (g.hands t))))
            hnd (hsub t hta)
          rw [updateHand_other g.hands uid t
            ((g.hands uid).erase Card.takecard) htu] at hS2
          have hS3 := handSum_update g.players
            (updateHand (updateHand g.hands uid ((g.hands uid).erase Card.takecard))
              t ((g.hands t).erase (pickCard (g.hands t) (rng.choose (g.hands t)))))
            uid
            ((g.hands uid).erase Card.takecard ++
              [pickCard (g.hands t) (rng.choose (g.hands t))])
            hnd hp
          rw [updateHand_other _ t uid _ (Ne.symm htu), updateHand_same] at hS3
          simp only [List.length_append, List.length_cons, List.length_nil] at *
          omega
      next hcond =>
        simp only [List.length_append, List.length_cons, List.length_nil]
        omega

theorem count_play_exchangecard (rng : Rng) (g : GameState) (uid : PlayerId)
    (target : Option PlayerId) (hnd : g.players.Nodup)
    (hsub : ∀ p, p ∈ g.alive → p ∈ g.players)
    (hp : uid ∈ g.players) (ha : uid ∈ g.alive)
    (hc : Card.exchangecard ∈ g.hands uid) :
    cardCount (play_card rng g uid Card.exchangecard target) = cardCount g := by
  rw [play_card_checks_pass rng g uid Card.exchangecard target hp ha hc,
    cardCount_end_check]
  have hS1 := handSum_update g.players g.hands uid
    ((g.hands uid).erase Card.exchangecard) hnd hp
  have hE := List.length_erase_add_one hc
  cases target with
  | none =>
      simp only [apply_effect, cardCount]
      simp only [List.length_append, List.length_cons, List.length_nil]
      omega
  | some t =>
      simp only [apply_effect, cardCount]
      split
      next hcond =>
        obtain ⟨ht0, hta, htu⟩ := hcond
        rw [updateHand_other g.hands uid t
          ((g.hands uid).erase Card.exchangecard) htu, updateHand_same]
        have hS2 := handSum_update g.players
          (updateHand g.hands uid ((g.hands uid).erase Card.exchangecard)) uid
          (g.hands t) hnd hp
        rw [updateHand_same] at hS2
        have hS3 := handSum_update g.players
          (updateHand (updateHand g.hands uid
            ((g.hands uid).erase Card.exchangecard)) uid (g.hands t)) t
          ((g.hands uid).erase Card.exchangecard) hnd (hsub t hta)
        rw [updateHand_other _ uid t _ htu,
          updateHand_other g.hands uid t
            ((g.hands uid).erase Card.exchangecard) htu] at hS3
        simp only [List.length_append, List.length_cons, List.length_nil] at *
        omega
      next hcond =>
        simp only [List.length_append, List.length_cons, List.length_nil]
        omega

theorem count_play_accusatecard (rng : Rng) (g : GameState) (uid : PlayerId)
    (target : Option PlayerId) (hnd : g.players.Nodup)
    (hsub : ∀ p, p ∈ g.alive → p ∈ g.players)
    (hp : uid ∈ g.players) (ha : uid ∈ g.alive)
    (hc : Card.accusatecard ∈ g.hands uid) :
    cardCount (play_card rng g uid Card.accusatecard target) = cardCount g := by
  rw [play_card_checks_pass rng g uid Card.accusatecard target hp ha hc,
    cardCount_end_check]
  have hS1 := handSum_update g.players g.hands uid
    ((g.hands uid).erase Card.accusatecard) hnd hp
  have hE := List.length_erase_add_one hc
  cases target with
  | none =>
      simp only [apply_effect, cardCount]
      simp only [List.length_append, List.length_cons, List.length_nil]
      omega
  | some t =>
      simp only [apply_effect, cardCount]
      split
      next hcond =>
        obtain ⟨ht0, hta⟩ := hcond
        split
        next hkil =>
          have hS2 := handSum_update g.players
            (updateHand g.hands uid ((g.hands uid).erase Card.accusatecard)) t
            ([] : List Card) hnd (hsub t hta)
          simp only [List.length_append, List.length_cons, List.length_nil] at *
          omega
        next hkil =>
          have hS2 := handSum_update g.players
            (updateHand g.hands uid ((g.hands uid).erase Card.accusatecard)) uid
            ([] : List Card) hnd hp
          rw [updateHand_same] at hS2
          rw [updateHand_same]
          simp only [List.length_append, List.length_cons, List.length_nil] at *
          omega
      next hcond =>
        simp only [List.length_append, List.length_cons, List.length_nil]
        omega

theorem count_play_killcard_break (rng : Rng) (g : GameState) (uid : PlayerId)
    (target : Option PlayerId) (hnd : g.players.Nodup)
    (hp : uid ∈ g.players) (ha : uid ∈ g.alive)
    (hc : Card.killcard ∈ g.hands uid)
    (hbr : shieldBreakCond g uid target) :
    cardCount (play_card rng g uid Card.killcard target) = cardCount g + 1 := by
  rw [play_card_checks_pass rng g uid Card.killcard target hp ha hc,
    cardCount_end_check]
  have hS1 := handSum_update g.players g.hands uid
    ((g.hands uid).erase Card.killcard) hnd hp
  have hE := List.length_erase_add_one hc
  cases target with
  | none => cases hbr
  | some t =>
      obtain ⟨ht0, hta, htu, hts⟩ := hbr
      simp only [apply_effect, cardCount]
      rw [if_pos ⟨ht0, hta, htu⟩, if_pos hts]
      rw [updateHand_same]
      have hS2 := handSum_update g.players
        (updateHand g.hands uid ((g.hands uid).erase Card.killcard)) uid
        ((g.hands uid).erase Card.killcard ++ [Card.shieldcard]) hnd hp
      rw [updateHand_same] at hS2
      simp only [List.length_append, List.length_cons, List.length_nil] at *
      omega

theorem count_play_killcard_nobreak (rng : Rng) (g : GameState) (uid : PlayerId)
    (target : Option PlayerId) (hnd : g.players.Nodup)
    (hsub : ∀ p, p ∈ g.alive → p ∈ g.players)
    (hp : uid ∈ g.players) (ha : uid ∈ g.alive)
    (hc : Card.killcard ∈ g.hands uid)
    (hbr : ¬ shieldBreakCond g uid target) :
    cardCount (play_card rng g uid Card.killcard target) = cardCount g := by
  rw [play_card_checks_pass rng g uid Card.killcard target hp ha hc,
    cardCount_end_check]
  have hS1 := handSum_update g.players g.hands uid
    ((g.hands uid).erase Card.killcard) hnd hp
  have hE := List.length_erase_add_one hc
  cases target with
  | none =>
      simp only [apply_effect, cardCount]
      simp only [List.length_append, List.length_cons, List.length_nil]
      omega
  | some t =>
      simp only [apply_effect, cardCount]
      split
      next hcond =>
        obtain ⟨ht0, hta, htu⟩ := hcond
        have hnos : t ∉ g.shields_equipped := by
          intro hmem
          exact hbr ⟨ht0, hta, htu, hmem⟩
        rw [if_neg hnos]
        have hS2 := handSum_update g.players
          (updateHand g.hands uid ((g.hands uid).erase Card.killcard)) t
          ([] : List Card) hnd (hsub t hta)
        simp only [List.length_append, List.length_cons, List.length_nil] at *
        omega
      next hcond =>
        simp only [List.length_append, List.length_cons, List.length_nil]
        omega

theorem pop_draws_count (n : Nat) (d : List Card) :
    (pop_draws n d).1.length + (pop_draws n d).2.length = d.length := by
  induction n generalizing d with
  | zero => simp [pop_draws]
  | succ n ih =>
      cases hl : d.getLast? with
      | none => simp [pop_draws, hl]
      | some c =>
          have hne : d ≠ [] := by
            intro h2
            rw [h2] at hl
            simp at hl
          have hpos : 0 < d.length := List.length_pos.mpr hne
          have := ih d.dropLast
          simp only [pop_draws, hl, List.length_cons]
          simp only [List.length_dropLast] at this
          omega

theorem deal_hands_not_mem (ps : List PlayerId) (hands : PlayerId → List Card)
    (deck : List Card) (q : PlayerId) (hq : q ∉ ps) :
    (deal_hands ps hands deck).1 q = hands q := by
  induction ps generalizing hands deck with
  | nil => rfl
  | cons p ps ih =>
      have hqp : q ≠ p := fun he => hq (by simp [he])
      have hq2 : q ∉ ps := fun h2 => hq (by simp [h2])
      simp only [deal_hands]
      rw [ih _ _ hq2, updateHand_other _ _ _ _ hqp]

theorem deal_hands_count (ps : List PlayerId) (hands : PlayerId → List Card)
    (deck : List Card) (hnd : ps.Nodup) (hz : ∀ p, p ∈ ps → hands p = []) :
    handSum (deal_hands ps hands deck).1 ps
      + (deal_hands ps hands deck).2.length = deck.length := by
  induction ps generalizing hands deck with
  | nil => simp [deal_hands, handSum]
  | cons p ps ih =>
      simp only [deal_hands]
      rw [handSum_cons]
      have hpn : p ∉ ps := (List.nodup_cons.mp hnd).1
      have hval : (deal_hands ps (updateHand hands p (pop_draws 3 deck).1)
          (pop_draws 3 deck).2).1 p = (pop_draws 3 deck).1 := by
        rw [deal_hands_not_mem ps _ _ p hpn, updateHand_same]
      rw [hval]
      have hz2 : ∀ q, q ∈ ps → (updateHand hands p (pop_draws 3 deck).1) q = [] := by
        intro q hq
        have hqp : q ≠ p := fun he => hpn (he ▸ hq)
        rw [updateHand_other _ _ _ _ hqp]
        exact hz q (by simp [hq])
      have hih := ih (updateHand hands p (pop_draws 3 deck).1)
        (pop_draws 3 deck).2 (List.nodup_cons.mp hnd).2 hz2
      have hpc := pop_draws_count 3 deck
      omega

theorem cardCount_create_game (deck0 : List Card) (ps : List PlayerId)
    (hnd : ps.Nodup) :
    cardCount (create_game_for_players deck0 ps) = deck0.length := by
  have hdc := deal_hands_count ps (fun _ => []) deck0 hnd (fun _ _ => rfl)
  simp only [create_game_for_players, cardCount]
  simp only [List.length_nil]
  omega

/-- C1 (amended): at session creation the deck-plus-hands-plus-used-pile
card count is 32, and each accepted play_card call preserves it EXCEPT
that playing SHIELD decreases it by one (the card leaves the actor's hand
without entering any pile while the shield is equipped) and a KILL play
that breaks a shield increases it by one (a SHIELD card is appended to
the killer's hand); every other accepted play leaves the count at its
previous value.  The claim's unconditional conservation is refuted by
C1_counterexample. -/
theorem C1_amended_card_conservation :
    (∀ rng : Rng, (∀ l, (rng.shuffle l).length = l.length) →
      ∀ ps : List PlayerId, ps.Nodup →
        cardCount (create_game_for_players (make_new_deck rng) ps) = 32) ∧
    (∀ (rng : Rng) (g : GameState) (uid : PlayerId) (card : Card)
        (target : Option PlayerId),
      (∀ l, (rng.shuffle l).length = l.length) →
      g.players.Nodup → (∀ p ∈ g.alive, p ∈ g.players) →
      uid ∈ g.players → uid ∈ g.alive → card ∈ g.hands uid →
      ((card = Card.shieldcard →
          cardCount (play_card rng g uid card target) + 1 = cardCount g) ∧
        (card = Card.killcard → shieldBreakCond g uid target →
          cardCount (play_card rng g uid card target) = cardCount g + 1) ∧
        (card = Card.killcard → ¬ shieldBreakCond g uid target →
          cardCount (play_card rng g uid card target) = cardCount g) ∧
        (card ≠ Card.shieldcard → card ≠ Card.killcard →
          cardCount (play_card rng g uid card target) = cardCount g))) := by
  constructor
  · intro rng hshuf ps hnd
    rw [cardCount_create_game _ _ hnd]
    unfold make_new_deck
    rw [hshuf]
    rfl
  · intro rng g uid card target hshuf hnd hsub hp ha hc
    refine ⟨?_, ?_, ?_, ?_⟩
    · rintro rfl
      exact count_play_shieldcard rng g uid target hnd hp ha hc
    · rintro rfl hbr
      exact count_play_killcard_break rng g uid target hnd hp ha hc hbr
    · rintro rfl hbr
      exact count_play_killcard_nobreak rng g uid target hnd hsub hp ha hc hbr
    · intro hs hk
      cases card
      case statecard => exact count_play_statecard rng g uid target hnd hp ha hc
      case searchcard =>
        exact count_play_searchcard rng g uid target hshuf hnd hp ha hc
      case shieldcard => exact absurd rfl hs
      case takecard => exact count_play_takecard rng g uid target hnd hsub hp ha hc
      case exchangecard =>
        exact count_play_exchangecard rng g uid target hnd hsub hp ha hc
      case judgecard => exact count_play_judgecard rng g uid target hnd hp ha hc
      case killcard => exact absurd rfl hk
      case accusatecard =>
        exact count_play_accusatecard rng g uid target hnd hsub hp ha hc

/-- C1 counterexample: in the session g0 (created from the concrete
shuffle d0 of the 32-card pool) the count is 32, and after player 1 plays
SHIELD it is 31: the count is NOT unchanged by every playCard operation. -/
theorem C1_counterexample :
    List.Perm d0 fresh_deck_pool ∧ cardCount g0 = 32 ∧
      Card.shieldcard ∈ g0.hands 1 ∧ 1 ∈ g0.alive ∧
      cardCount (play_card rng0 g0 1 Card.shieldcard none) = 31 :=
  ⟨by decide, by decide, by decide, by decide, by decide⟩

/-- C1 witness: the amended conservation theorem applied at a concrete
input (player 1 playing STATE in session g0). -/
theorem C1_witness :
    cardCount (play_card rng0 g0 1 Card.statecard none) = cardCount g0 ∧
      cardCount (create_game_for_players (make_new_deck rng0) [1, 2, 3, 4, 5])
        = 32 :=
  ⟨(C1_amended_card_conservation.2 rng0 g0 1 Card.statecard none
      (fun _ => rfl) (by decide) (by decide) (by decide) (by decide)
      (by decide)).2.2.2 (by decide) (by decide),
    C1_amended_card_conservation.1 rng0 (fun _ => rfl) [1, 2, 3, 4, 5]
      (by decide)⟩

/-- C6 counterexample: playing SHIELD removes the card from the actor's
hand (src/card.py line 681 removes the played card unconditionally), so
the card is NOT kept in the hand as the claim states. -/
theorem C6_counterexample :
    Card.shieldcard ∈ g0.hands 1 ∧
      Card.shieldcard ∉ (play_card rng0 g0 1 Card.shieldcard none).hands 1 :=
  ⟨by decide, by decide⟩

/-- C6 (amended): playing SHIELD removes the card from the actor's hand
but does NOT move it to the used pile (it leaves every pile while
equipped); the actor's shield flag is set, and it stays set under any
later play that is not a KILL naming the shield holder as target; deck,
used pile, alive set and killer are unchanged by the SHIELD play. -/
theorem C6_amended_shield_play (rng : Rng) (g : GameState) (uid : PlayerId)
    (target : Option PlayerId)
    (hp : uid ∈ g.players) (ha : uid ∈ g.alive)
    (hc : Card.shieldcard ∈ g.hands uid) :
    ((play_card rng g uid Card.shieldcard target).hands uid
        = (g.hands uid).erase Card.shieldcard ∧
      uid ∈ (play_card rng g uid Card.shieldcard target).shields_equipped ∧
      (play_card rng g uid Card.shieldcard target).deck = g.deck ∧
      (play_card rng g uid Card.shieldcard target).used = g.used ∧
      (play_card rng g uid Card.shieldcard target).alive = g.alive ∧
      (play_card rng g uid Card.shieldcard target).killer = g.killer) ∧
    (∀ (rng2 : Rng) (g2 : GameState) (a : PlayerId) (c : Card)
        (t2 : Option PlayerId),
      uid ∈ g2.shields_equipped → (c = Card.killcard → t2 ≠ some uid) →
      uid ∈ (play_card rng2 g2 a c t2).shields_equipped) := by
  constructor
  · rw [play_card_checks_pass rng g uid Card.shieldcard target hp ha hc]
    refine ⟨?_, ?_, ?_, ?_, ?_, ?_⟩
    · rw [end_check_hands]
      exact updateHand_same _ _ _
    · rw [end_check_shields]
      show uid ∈ (if uid ∈ g.shields_equipped then g.shields_equipped
        else g.shields_equipped ++ [uid])
      split
      next h => exact h
      next h => simp
    · rw [end_check_deck]
      rfl
    · rw [end_check_used]
      rfl
    · rw [end_check_alive]
      rfl
    · rw [end_check_killer]
      rfl
  · intro rng2 g2 a c t2 hmem hkt
    unfold play_card
    split
    · split
      · split
        · rw [end_check_shields]
          cases c
          case statecard => exact hmem
          case searchcard => exact hmem
          case judgecard => exact hmem
          case shieldcard =>
            show uid ∈ (if a ∈ g2.shields_equipped then g2.shields_equipped
              else g2.shields_equipped ++ [a])
            split
            next => exact hmem
            next => exact List.mem_append_left _ hmem
          case takecard =>
            cases t2 with
            | none => exact hmem
            | some t =>
                simp only [apply_effect]
                split
                · split
                  · exact hmem
                  · exact hmem
                · exact hmem
          case exchangecard =>
            cases t2 with
            | none => exact hmem
            | some t =>
                simp only [apply_effect]
                split
                · exact hmem
                · exact hmem
          case accusatecard =>
            cases t2 with
            | none => exact hmem
            | some t =>
                simp only [apply_effect]
                split
                · split
                  · exact hmem
                  · exact hmem
                · exact hmem
          case killcard =>
            cases t2 with
            | none => exact hmem
            | some t =>
                have htu : t ≠ uid := by
                  intro he
                  exact hkt rfl (by rw [he])
                simp only [apply_effect]
                split
                · split
                  · exact (List.mem_erase_of_ne (Ne.symm htu)).mpr hmem
                  · exact hmem
                · exact hmem
        · exact hmem
      · exact hmem
    · exact hmem

/-- C6 witness: the amended theorem applied to player 1 equipping a
shield in the concrete session g0. -/
theorem C6_witness :
    (play_card rng0 g0 1 Card.shieldcard none).used = g0.used ∧
      1 ∈ (play_card rng0 g0 1 Card.shieldcard none).shields_equipped :=
  ⟨((C6_amended_shield_play rng0 g0 1 none (by decide) (by decide)
      (by decide)).1).2.2.2.1,
    ((C6_amended_shield_play rng0 g0 1 none (by decide) (by decide)
      (by decide)).1).2.1⟩

/-- C2: the source has no finished-flag check in play_card — the claim
that plays on a finished session are rejected before any mutation is
violated.  gC2 is a finished session (winner = killer) whose surviving
player 2 still holds STATE; playing it is accepted and mutates the log,
the used pile and the hand. -/
theorem C2_no_finished_check :
    gC2.finished = true ∧ gC2.winner = some Winner.killer ∧
      2 ∈ gC2.alive ∧ Card.statecard ∈ gC2.hands 2 ∧
      (play_card rng0 gC2 2 Card.statecard none).log
        = gC2.log ++ [LogEntry.playedState 2] ∧
      (play_card rng0 gC2 2 Card.statecard none).used
        = gC2.used ++ [Card.statecard] ∧
      (play_card rng0 gC2 2 Card.statecard none).hands 2 = [] :=
  ⟨by decide, by decide, by decide, by decide, by decide, by decide, by decide⟩

theorem end_check_of_killer_none_winner (g : GameState) (hk : g.killer = none)
    (hw : g.winner = some Winner.faithfuls) :
    (end_check g).winner = some Winner.faithfuls := by
  unfold end_check
  have h1 : truthyId g.killer = false := by rw [hk]; rfl
  rw [h1]
  split
  next hcond => simp at hcond
  next =>
    split
    · rfl
    · exact hw

theorem end_check_finished_of_not_win (g : GameState) (hf : g.finished = false)
    (k : PlayerId) (hk : g.killer = some k)
    (p : PlayerId) (hpa : p ∈ g.alive) (hpk : p ≠ k) :
    (end_check g).finished = false := by
  have hwbk : winner_by_killer g.alive g.killer = false := by
    rw [hk]
    have hfil : p ∈ g.alive.filter (fun q => q != k) :=
      List.mem_filter.mpr ⟨hpa, by simpa using hpk⟩
    have hlen : (g.alive.filter (fun q => q != k)).length ≠ 0 := by
      intro h0
      rw [List.length_eq_zero.mp h0] at hfil
      cases hfil
    cases hw : winner_by_killer g.alive (some k) with
    | false => rfl
    | true => exact absurd ((winner_by_killer_true_iff _ _).mp hw).2 hlen
  unfold end_check
  rw [hwbk, hk]
  simp [hf]

theorem accusation_resolution (rng : Rng) (g : GameState) (uid t : PlayerId)
    (hp : uid ∈ g.players) (ha : uid ∈ g.alive)
    (hc : Card.accusatecard ∈ g.hands uid)
    (ht0 : t ≠ 0) (hta : t ∈ g.alive) :
    (g.killer = some t →
      (play_card rng g uid Card.accusatecard (some t)).alive
          = g.alive.erase t ∧
      (play_card rng g uid Card.accusatecard (some t)).hands t = [] ∧
      (play_card rng g uid Card.accusatecard (some t)).used
          = g.used ++ [Card.accusatecard] ++
            (if t = uid then (g.hands uid).erase Card.accusatecard
              else g.hands t) ∧
      (play_card rng g uid Card.accusatecard (some t)).killer = none ∧
      (play_card rng g uid Card.accusatecard (some t)).finished = true ∧
      (play_card rng g uid Card.accusatecard (some t)).winner
          = some Winner.faithfuls ∧
      (play_card rng g uid Card.accusatecard (some t)).log
          = g.log ++ [LogEntry.accusedCorrect uid t]) ∧
    (g.killer ≠ some t →
      (play_card rng g uid Card.accusatecard (some t)).alive
          = g.alive.erase uid ∧
      (play_card rng g uid Card.accusatecard (some t)).hands uid = [] ∧
      (play_card rng g uid Card.accusatecard (some t)).used
          = g.used ++ [Card.accusatecard] ++
            (g.hands uid).erase Card.accusatecard ∧
      (play_card rng g uid Card.accusatecard (some t)).killer = g.killer ∧
      (play_card rng g uid Card.accusatecard (some t)).log
          = g.log ++ [LogEntry.accusedWrong uid]) := by
  rw [play_card_checks_pass rng g uid Card.accusatecard (some t) hp ha hc]
  constructor
  · intro hkil
    simp only [apply_effect]
    rw [if_pos ⟨ht0, hta⟩, if_pos hkil]
    refine ⟨?_, ?_, ?_, ?_, ?_, ?_, ?_⟩
    · rw [end_check_alive]
    · rw [end_check_hands]
      exact updateHand_same _ _ _
    · rw [end_check_used]
      show g.used ++ [Card.accusatecard] ++
        updateHand g.hands uid ((g.hands uid).erase Card.accusatecard) t = _
      by_cases htu : t = uid
      · subst htu
        rw [updateHand_same, if_pos rfl]
      · rw [updateHand_other _ _ _ _ htu, if_neg htu]
    · rw [end_check_killer]
    · show (end_check _).finished = true
      unfold end_check
      split
      · rfl
      split
      · rfl
      · rfl
    · exact end_check_of_killer_none_winner _ rfl rfl
    · rw [end_check_log]
  · intro hkil
    simp only [apply_effect]
    rw [if_pos ⟨ht0, hta⟩, if_neg hkil]
    refine ⟨?_, ?_, ?_, ?_, ?_⟩
    · rw [end_check_alive]
    · rw [end_check_hands]
      exact updateHand_same _ _ _
    · rw [end_check_used]
      show g.used ++ [Card.accusatecard] ++
        updateHand g.hands uid ((g.hands uid).erase Card.accusatecard) uid = _
      rw [updateHand_same]
    · rw [end_check_killer]
    · rw [end_check_log]

/-- C3: ACCUSATION by an alive holder against an alive target t: if t is
the current killer, t is removed from alive, t's hand is moved to the
used pile and emptied, the killer becomes none, the session finishes with
winner faithfuls; otherwise the accuser is eliminated instead (hand to
the used pile), the killer is unchanged, and the session stays unfinished
whenever some player other than the killer and the accuser is alive. -/
theorem C3_accusation_outcome (rng : Rng) (g : GameState) (uid t : PlayerId)
    (hp : uid ∈ g.players) (ha : uid ∈ g.alive)
    (hc : Card.accusatecard ∈ g.hands uid)
    (ht0 : t ≠ 0) (hta : t ∈ g.alive) :
    (g.killer = some t →
      (play_card rng g uid Card.accusatecard (some t)).alive
          = g.alive.erase t ∧
      (play_card rng g uid Card.accusatecard (some t)).hands t = [] ∧
      (play_card rng g uid Card.accusatecard (some t)).used
          = g.used ++ [Card.accusatecard] ++
            (if t = uid then (g.hands uid).erase Card.accusatecard
              else g.hands t) ∧
      (play_card rng g uid Card.accusatecard (some t)).killer = none ∧
      (play_card rng g uid Card.accusatecard (some t)).finished = true ∧
      (play_card rng g uid Card.accusatecard (some t)).winner
          = some Winner.faithfuls) ∧
    (g.killer ≠ some t →
      (play_card rng g uid Card.accusatecard (some t)).alive
          = g.alive.erase uid ∧
      (play_card rng g uid Card.accusatecard (some t)).hands uid = [] ∧
      (play_card rng g uid Card.accusatecard (some t)).used
          = g.used ++ [Card.accusatecard] ++
            (g.hands uid).erase Card.accusatecard ∧
      (play_card rng g uid Card.accusatecard (some t)).killer = g.killer ∧
      (∀ k p, g.finished = false → g.killer = some k → p ∈ g.alive →
        p ≠ k → p ≠ uid →
        (play_card rng g uid Card.accusatecard (some t)).finished = false)) := by
  constructor
  · intro hkil
    have h := (accusation_resolution rng g uid t hp ha hc ht0 hta).1 hkil
    exact ⟨h.1, h.2.1, h.2.2.1, h.2.2.2.1, h.2.2.2.2.1, h.2.2.2.2.2.1⟩
  · intro hkil
    have h := (accusation_resolution rng g uid t hp ha hc ht0 hta).2 hkil
    refine ⟨h.1, h.2.1, h.2.2.1, h.2.2.2.1, ?_⟩
    intro k p hf hk hpa hpk hpu
    rw [play_card_checks_pass rng g uid Card.accusatecard (some t) hp ha hc]
    simp only [apply_effect]
    rw [if_pos ⟨ht0, hta⟩, if_neg hkil]
    exact end_check_finished_of_not_win _ hf k hk p
      ((List.mem_erase_of_ne hpu).mpr hpa) hpk

/-- C3 witness: player 5 correctly accuses the killer (player 4) in the
concrete session g0. -/
theorem C3_witness :
    (play_card rng0 g0 5 Card.accusatecard (some 4)).winner
        = some Winner.faithfuls ∧
      (play_card rng0 g0 5 Card.accusatecard (some 4)).killer = none :=
  ⟨((C3_accusation_outcome rng0 g0 5 4 (by decide) (by decide) (by decide)
      (by decide) (by decide)).1 (by decide)).2.2.2.2.2,
    ((C3_accusation_outcome rng0 g0 5 4 (by decide) (by decide) (by decide)
      (by decide) (by decide)).1 (by decide)).2.2.2.1⟩

/-- C9: ACCUSATION does not require the target to differ from the actor;
a self-accusation resolves normally: a self-accusing killer is eliminated
with killer set to none and winner faithfuls, a self-accusing non-killer
is eliminated as a wrong accuser with the killer unchanged. -/
theorem C9_self_accusation (rng : Rng) (g : GameState) (uid : PlayerId)
    (hp : uid ∈ g.players) (ha : uid ∈ g.alive)
    (hc : Card.accusatecard ∈ g.hands uid) (hu0 : uid ≠ 0) :
    (g.killer = some uid →
      (play_card rng g uid Card.accusatecard (some uid)).alive
          = g.alive.erase uid ∧
      (play_card rng g uid Card.accusatecard (some uid)).hands uid = [] ∧
      (play_card rng g uid Card.accusatecard (some uid)).killer = none ∧
      (play_card rng g uid Card.accusatecard (some uid)).finished = true ∧
      (play_card rng g uid Card.accusatecard (some uid)).winner
          = some Winner.faithfuls) ∧
    (g.killer ≠ some uid →
      (play_card rng g uid Card.accusatecard (some uid)).alive
          = g.alive.erase uid ∧
      (play_card rng g uid Card.accusatecard (some uid)).hands uid = [] ∧
      (play_card rng g uid Card.accusatecard (some uid)).killer = g.killer ∧
      (play_card rng g uid Card.accusatecard (some uid)).log
          = g.log ++ [LogEntry.accusedWrong uid]) := by
  constructor
  · intro hkil
    have h := (accusation_resolution rng g uid uid hp ha hc hu0 ha).1 hkil
    exact ⟨h.1, h.2.1, h.2.2.2.1, h.2.2.2.2.1, h.2.2.2.2.2.1⟩
  · intro hkil
    have h := (accusation_resolution rng g uid uid hp ha hc hu0 ha).2 hkil
    exact ⟨h.1, h.2.1, h.2.2.2.1, h.2.2.2.2⟩

/-- C9 witness: player 5 (not the killer) self-accuses in the concrete
session g0 and is eliminated with the killer unchanged. -/
theorem C9_witness :
    (play_card rng0 g0 5 Card.accusatecard (some 5)).alive
        = g0.alive.erase 5 ∧
      (play_card rng0 g0 5 Card.accusatecard (some 5)).killer = g0.killer :=
  ⟨((C9_self_accusation rng0 g0 5 (by decide) (by decide) (by decide)
      (by decide)).2 (by decide)).1,
    ((C9_self_accusation rng0 g0 5 (by decide) (by decide) (by decide)
      (by decide)).2 (by decide)).2.2.1⟩

/-- C5: an accepted KILL play always makes the actor the current killer
(even with no or an invalid target); against a valid target (alive,
nonzero id, distinct from the actor) with an equipped shield, nobody is
eliminated, exactly one SHIELD card is appended to the actor's hand and
the target's shield flag is cleared; against a valid unshielded target,
the target is removed from the alive set and its hand is moved to the
used pile. -/
theorem C5_kill_resolution (rng : Rng) (g : GameState) (uid : PlayerId)
    (target : Option PlayerId)
    (hp : uid ∈ g.players) (ha : uid ∈ g.alive)
    (hc : Card.killcard ∈ g.hands uid) :
    (play_card rng g uid Card.killcard target).killer = some uid ∧
    (∀ t, target = some t → t ≠ 0 → t ∈ g.alive → t ≠ uid →
      (t ∈ g.shields_equipped →
        (play_card rng g uid Card.killcard target).alive = g.alive ∧
        (play_card rng g uid Card.killcard target).hands uid
            = (g.hands uid).erase Card.killcard ++ [Card.shieldcard] ∧
        (play_card rng g uid Card.killcard target).shields_equipped
            = g.shields_equipped.erase t ∧
        (g.shields_equipped.Nodup →
          t ∉ (play_card rng g uid Card.killcard target).shields_equipped)) ∧
      (t ∉ g.shields_equipped →
        (play_card rng g uid Card.killcard target).alive = g.alive.erase t ∧
        (play_card rng g uid Card.killcard target).hands t = [] ∧
        (play_card rng g uid Card.killcard target).used
            = g.used ++ [Card.killcard] ++ g.hands t)) := by
  constructor
  · rw [play_card_checks_pass rng g uid Card.killcard target hp ha hc,
      end_check_killer]
    cases target with
    | none => rfl
    | some t =>
        simp only [apply_effect]
        split
        · split
          · rfl
          · rfl
        · rfl
  · intro t htgt ht0 hta htu
    subst htgt
    rw [play_card_checks_pass rng g uid Card.killcard (some t) hp ha hc]
    simp only [apply_effect]
    rw [if_pos ⟨ht0, hta, htu⟩]
    constructor
    · intro hts
      rw [if_pos hts]
      refine ⟨?_, ?_, ?_, ?_⟩
      · rw [end_check_alive]
      · rw [end_check_hands]
        simp [updateHand]
      · rw [end_check_shields]
      · intro hnd2
        rw [end_check_shields]
        show t ∉ g.shields_equipped.erase t
        exact hnd2.not_mem_erase
    · intro hts
      rw [if_neg hts]
      refine ⟨?_, ?_, ?_⟩
      · rw [end_check_alive]
      · rw [end_check_hands]
        simp [updateHand]
      · rw [end_check_used]
        show g.used ++ [Card.killcard] ++
          updateHand g.hands uid ((g.hands uid).erase Card.killcard) t = _
        rw [updateHand_other _ _ _ _ htu]

/-- C5 witness: in gW5 (player 1 has a shield equipped) the killer play
of player 4 against player 1 sets the killer to 4 and eliminates nobody. -/
theorem C5_witness :
    (play_card rng0 gW5 4 Card.killcard (some 1)).killer = some 4 ∧
      (play_card rng0 gW5 4 Card.killcard (some 1)).alive = gW5.alive :=
  ⟨(C5_kill_resolution rng0 gW5 4 (some 1) (by decide) (by decide)
      (by decide)).1,
    (((C5_kill_resolution rng0 gW5 4 (some 1) (by decide) (by decide)
      (by decide)).2 1 rfl (by decide) (by decide) (by decide)).1
      (by decide)).1⟩

/-- C7 counterexample: in g7 (reached from g0 by three TAKE plays)
player 3 is alive with an empty hand; when player 2 plays TAKE against 3,
the actor's hand size drops by one (the played card) and the used pile
grows, so "no player's hand size changes / no state change beyond
logging" is false as stated. -/
theorem C7_counterexample :
    3 ∈ g7.alive ∧ g7.hands 3 = [] ∧ 2 ∈ g7.alive ∧
      Card.takecard ∈ g7.hands 2 ∧
      ((play_card rng0 g7 2 Card.takecard (some 3)).hands 2).length
        ≠ (g7.hands 2).length ∧
      (play_card rng0 g7 2 Card.takecard (some 3)).used ≠ g7.used :=
  ⟨by decide, by decide, by decide, by decide, by decide, by decide⟩

/-- C7 (amended): TAKE against a valid target with an empty hand changes
no hand except the actor's own, which loses exactly the played TAKE card;
that card is appended to the used pile, "no cards to take" is logged, and
the deck, alive set, killer and shield flags are unchanged. -/
theorem C7_amended_take_empty (rng : Rng) (g : GameState) (uid t : PlayerId)
    (hp : uid ∈ g.players) (ha : uid ∈ g.alive)
    (hc : Card.takecard ∈ g.hands uid)
    (ht0 : t ≠ 0) (hta : t ∈ g.alive) (htu : t ≠ uid)
    (hemp : g.hands t = []) :
    (play_card rng g uid Card.takecard (some t)).hands t = [] ∧
      (play_card rng g uid Card.takecard (some t)).hands uid
        = (g.hands uid).erase Card.takecard ∧
      (∀ p, p ≠ uid → (play_card rng g uid Card.takecard (some t)).hands p
        = g.hands p) ∧
      (play_card rng g uid Card.takecard (some t)).deck = g.deck ∧
      (play_card rng g uid Card.takecard (some t)).used
        = g.used ++ [Card.takecard] ∧
      (play_card rng g uid Card.takecard (some t)).alive = g.alive ∧
      (play_card rng g uid Card.takecard (some t)).killer = g.killer ∧
      (play_card rng g uid Card.takecard (some t)).shields_equipped
        = g.shields_equipped ∧
      (play_card rng g uid Card.takecard (some t)).log
        = g.log ++ [LogEntry.noCardsToTake t] := by
  rw [play_card_checks_pass rng g uid Card.takecard (some t) hp ha hc]
  simp only [apply_effect]
  rw [if_pos ⟨ht0, hta, htu⟩]
  have hie : ((updateHand g.hands uid
      ((g.hands uid).erase Card.takecard)) t).isEmpty = true := by
    rw [updateHand_other _ _ _ _ htu, hemp]
    rfl
  rw [if_pos hie]
  refine ⟨?_, ?_, ?_, ?_, ?_, ?_, ?_, ?_, ?_⟩
  · rw [end_check_hands]
    show updateHand g.hands uid ((g.hands uid).erase Card.takecard) t = []
    rw [updateHand_other _ _ _ _ htu, hemp]
  · rw [end_check_hands]
    exact updateHand_same _ _ _
  · intro p hpu
    rw [end_check_hands]
    show updateHand g.hands uid ((g.hands uid).erase Card.takecard) p = g.hands p
    rw [updateHand_other _ _ _ _ hpu]
  · rw [end_check_deck]
  · rw [end_check_used]
  · rw [end_check_alive]
  · rw [end_check_killer]
  · rw [end_check_shields]
  · rw [end_check_log]

/-- C7 witness: the amended theorem applied at the concrete state g7
(player 2 takes from the empty-handed player 3). -/
theorem C7_witness :
    (play_card rng0 g7 2 Card.takecard (some 3)).hands 3 = [] ∧
      (play_card rng0 g7 2 Card.takecard (some 3)).log
        = g7.log ++ [LogEntry.noCardsToTake 3] :=
  ⟨(C7_amended_take_empty rng0 g7 2 3 (by decide) (by decide) (by decide)
      (by decide) (by decide) (by decide) (by decide)).1,
    (C7_amended_take_empty rng0 g7 2 3 (by decide) (by decide) (by decide)
      (by decide) (by decide) (by decide) (by decide)).2.2.2.2.2.2.2.2⟩

/-- C10: EXCHANGE with a valid target swaps exactly the two hands (the
actor's hand minus the played EXCHANGE card goes to the target and the
target's hand to the actor); shield flags do not travel with the hands,
and the alive set, killer, deck, every other player's hand, and the used
pile (apart from the played card) are unchanged. -/
theorem C10_exchange_frame (rng : Rng) (g : GameState) (uid t : PlayerId)
    (hp : uid ∈ g.players) (ha : uid ∈ g.alive)
    (hc : Card.exchangecard ∈ g.hands uid)
    (ht0 : t ≠ 0) (hta : t ∈ g.alive) (htu : t ≠ uid) :
    (play_card rng g uid Card.exchangecard (some t)).hands uid = g.hands t ∧
      (play_card rng g uid Card.exchangecard (some t)).hands t
        = (g.hands uid).erase Card.exchangecard ∧
      (∀ p, p ≠ uid → p ≠ t →
        (play_card rng g uid Card.exchangecard (some t)).hands p
          = g.hands p) ∧
      (play_card rng g uid Card.exchangecard (some t)).shields_equipped
        = g.shields_equipped ∧
      (play_card rng g uid Card.exchangecard (some t)).alive = g.alive ∧
      (play_card rng g uid Card.exchangecard (some t)).killer = g.killer ∧
      (play_card rng g uid Card.exchangecard (some t)).deck = g.deck ∧
      (play_card rng g uid Card.exchangecard (some t)).used
        = g.used ++ [Card.exchangecard] := by
  rw [play_card_checks_pass rng g uid Card.exchangecard (some t) hp ha hc]
  simp only [apply_effect]
  rw [if_pos ⟨ht0, hta, htu⟩]
  have hut : uid ≠ t := Ne.symm htu
  refine ⟨?_, ?_, ?_, ?_, ?_, ?_, ?_, ?_⟩
  · rw [end_check_hands]
    simp [updateHand, hut, htu]
  · rw [end_check_hands]
    simp [updateHand, hut, htu]
  · intro p hpu hpt
    rw [end_check_hands]
    simp [updateHand, hpu, hpt]
  · rw [end_check_shields]
  · rw [end_check_alive]
  · rw [end_check_killer]
  · rw [end_check_deck]
  · rw [end_check_used]

/-- C10 witness: player 4 exchanges hands with player 5 in the concrete
session g0. -/
theorem C10_witness :
    (play_card rng0 g0 4 Card.exchangecard (some 5)).hands 4 = g0.hands 5 ∧
      (play_card rng0 g0 4 Card.exchangecard (some 5)).shields_equipped
        = g0.shields_equipped :=
  ⟨(C10_exchange_frame rng0 g0 4 5 (by decide) (by decide) (by decide)
      (by decide) (by decide) (by decide)).1,
    (C10_exchange_frame rng0 g0 4 5 (by decide) (by decide) (by decide)
      (by decide) (by decide) (by decide)).2.2.2.1⟩

/-- C4 counterexample: gC4 has killer = 1 before the call, yet player 2's
KILL play ends the game with winner "killer" while the alive set is [2],
not [1]: winner = "killer" does not imply alive = single pre-call killer. -/
theorem C4_counterexample :
    gC4.killer = some 1 ∧ gC4.finished = false ∧
      (play_card rng0 gC4 2 Card.killcard (some 1)).finished = true ∧
      (play_card rng0 gC4 2 Card.killcard (some 1)).winner
        = some Winner.killer ∧
      (play_card rng0 gC4 2 Card.killcard (some 1)).alive ≠ [1] ∧
      1 ∉ (play_card rng0 gC4 2 Card.killcard (some 1)).alive :=
  ⟨by decide, by decide, by decide, by decide, by decide, by decide⟩

/-- C4 (amended): for an accepted play on an unfinished session, the call
ends with finished = true and winner = "killer" if and only if, AFTER the
card's effect, the alive set is exactly the singleton of the
then-current killer (which a KILL play may have just changed to the
actor). -/
theorem C4_amended_killer_victory (rng : Rng) (g : GameState)
    (uid : PlayerId) (card : Card) (target : Option PlayerId)
    (hp : uid ∈ g.players) (ha : uid ∈ g.alive) (hc : card ∈ g.hands uid)
    (hw : g.winner = none) (hnd : g.alive.Nodup) :
    ((play_card rng g uid card target).finished = true ∧
      (play_card rng g uid card target).winner = some Winner.killer) ↔
    (∃ k, (play_card rng g uid card target).killer = some k ∧ k ≠ 0 ∧
      (play_card rng g uid card target).alive = [k]) := by
  rw [play_card_checks_pass rng g uid card target hp ha hc]
  have hW := apply_effect_winner rng
    { g with hands := updateHand g.hands uid ((g.hands uid).erase card) }
    uid card target
  have hw1 : ({ g with
      hands := updateHand g.hands uid ((g.hands uid).erase card) }
      : GameState).winner = none := hw
  constructor
  · rintro ⟨hfin, hwin⟩
    have hne : (apply_effect rng
        { g with hands := updateHand g.hands uid ((g.hands uid).erase card) }
        uid card target).winner ≠ some Winner.killer := by
      rcases hW with h1 | ⟨h2, _⟩
      · rw [h1, hw1]
        simp
      · rw [h2]
        simp
    have hcond := end_check_killer_winner _ hwin hne
    rw [Bool.and_eq_true] at hcond
    obtain ⟨htr, hwbk⟩ := hcond
    cases hk2 : (apply_effect rng
        { g with hands := updateHand g.hands uid ((g.hands uid).erase card) }
        uid card target).killer with
    | none =>
        rw [hk2] at htr
        simp [truthyId] at htr
    | some k =>
        rw [hk2] at htr hwbk
        have hk0 : k ≠ 0 := by simpa [truthyId] using htr
        have hhh := (winner_by_killer_true_iff _ k).mp hwbk
        have hnd2 : (apply_effect rng
            { g with hands := updateHand g.hands uid ((g.hands uid).erase card) }
            uid card target).alive.Nodup := by
          rcases apply_effect_alive rng
            { g with hands := updateHand g.hands uid ((g.hands uid).erase card) }
            uid card target with ha1 | ⟨x, ha2⟩
          · rw [ha1]
            exact hnd
          · rw [ha2]
            exact hnd.erase x
        have hsing := nodup_filter_eq_singleton _ k hnd2 hhh.1 hhh.2
        refine ⟨k, ?_, hk0, ?_⟩
        · rw [end_check_killer]
          exact hk2
        · rw [end_check_alive]
          exact hsing
  · rintro ⟨k, hk, hk0, hal⟩
    rw [end_check_killer] at hk
    rw [end_check_alive] at hal
    have hcond : (truthyId (apply_effect rng
        { g with hands := updateHand g.hands uid ((g.hands uid).erase card) }
        uid card target).killer &&
      winner_by_killer (apply_effect rng
        { g with hands := updateHand g.hands uid ((g.hands uid).erase card) }
        uid card target).alive (apply_effect rng
        { g with hands := updateHand g.hands uid ((g.hands uid).erase card) }
        uid card target).killer) = true := by
      rw [hk, hal]
      simp [truthyId, winner_by_killer_singleton, hk0]
    rw [end_check_eq_of_cond _ hcond]
    exact ⟨rfl, rfl⟩

/-- C4 witness: the amended equivalence applied at the concrete state
gC4, where player 2's KILL leaves alive = [2] with killer 2. -/
theorem C4_witness :
    (play_card rng0 gC4 2 Card.killcard (some 1)).finished = true ∧
      (play_card rng0 gC4 2 Card.killcard (some 1)).winner
        = some Winner.killer :=
  (C4_amended_killer_victory rng0 gC4 2 Card.killcard (some 1) (by decide)
    (by decide) (by decide) rfl (by decide)).mpr
    ⟨2, by decide, by decide, by decide⟩

theorem join_drain_small (q : List PlayerId) (h : q.length < MATCH_SIZE) :
    join_drain q = (q, none) := by
  unfold join_drain
  rw [if_neg (by omega)]

theorem join_drain_full (q : List PlayerId) (h : q.length = MATCH_SIZE) :
    join_drain q = ([], some q) := by
  unfold join_drain
  rw [if_pos (le_of_eq h.symm)]
  rw [List.drop_eq_nil_of_le (le_of_eq h), List.take_of_length_le (le_of_eq h)]

/-- C8: joining while already queued (below the match size, as every
between-call queue is) is a no-op; join preserves freedom from
duplicates and keeps the queue below MATCH_SIZE; the join that brings
the queue to MATCH_SIZE dequeues all five waiting players in FIFO order
into one new session's participant list, leaving the queue empty; five
joins by distinct players from an empty queue form exactly one session
containing all five, and create_game_for_players takes exactly that
participant list. -/
theorem C8_matchmaking_join :
    (∀ q uid, uid ∈ q → q.length < MATCH_SIZE → join_queue q uid = (q, none)) ∧
    (∀ q uid, q.Nodup → ((join_queue q uid).1.Nodup ∧
      ∀ ps, (join_queue q uid).2 = some ps → ps.Nodup)) ∧
    (∀ q uid, q.length < MATCH_SIZE →
      (join_queue q uid).1.length < MATCH_SIZE) ∧
    (∀ q uid, uid ∉ q → q.length + 1 = MATCH_SIZE →
      join_queue q uid = ([], some (q ++ [uid]))) ∧
    (∀ deck0 ps, (create_game_for_players deck0 ps).players = ps) ∧
    (∀ p1 p2 p3 p4 p5 : PlayerId, [p1, p2, p3, p4, p5].Nodup →
      join_queue [] p1 = ([p1], none) ∧
      join_queue [p1] p2 = ([p1, p2], none) ∧
      join_queue [p1, p2] p3 = ([p1, p2, p3], none) ∧
      join_queue [p1, p2, p3] p4 = ([p1, p2, p3, p4], none) ∧
      join_queue [p1, p2, p3, p4] p5 = ([], some [p1, p2, p3, p4, p5])) := by
  refine ⟨?_, ?_, ?_, ?_, ?_, ?_⟩
  · intro q uid hm hlen
    unfold join_queue
    rw [if_pos hm]
    exact join_drain_small q hlen
  · intro q uid hnd
    unfold join_queue join_drain
    by_cases hm : uid ∈ q
    · rw [if_pos hm]
      split
      · exact ⟨hnd.sublist (List.drop_sublist _ _),
          fun ps hps => by
            rw [Option.some_inj] at hps
            exact hps ▸ hnd.sublist (List.take_sublist _ _)⟩
      · exact ⟨hnd, fun ps hps => by cases hps⟩
    · rw [if_neg hm]
      have hnd2 : (q ++ [uid]).Nodup := by
        simp [List.nodup_append, hnd, hm]
      split
      · exact ⟨hnd2.sublist (List.drop_sublist _ _),
          fun ps hps => by
            rw [Option.some_inj] at hps
            exact hps ▸ hnd2.sublist (List.take_sublist _ _)⟩
      · exact ⟨hnd2, fun ps hps => by cases hps⟩
  · intro q uid hlen
    unfold join_queue join_drain
    by_cases hm : uid ∈ q
    · rw [if_pos hm]
      split
      next hge =>
        rw [List.length_drop]
        unfold MATCH_SIZE at *
        omega
      next hge => exact hlen
    · rw [if_neg hm]
      have h2 : (q ++ [uid]).length = q.length + 1 := by simp
      split
      next hge =>
        rw [List.length_drop, h2]
        unfold MATCH_SIZE at *
        omega
      next hge =>
        rw [h2]
        unfold MATCH_SIZE at *
        omega
  · intro q uid hm hlen
    unfold join_queue
    rw [if_neg hm]
    exact join_drain_full (q ++ [uid]) (by simpa using hlen)
  · intro deck0 ps
    rfl
  · intro p1 p2 p3 p4 p5 hnd
    simp only [List.nodup_cons, List.mem_cons, List.mem_singleton,
      List.not_mem_nil, or_false, not_or, List.nodup_nil, and_true,
      not_false_iff] at hnd
    obtain ⟨⟨h12, h13, h14, h15⟩, ⟨h23, h24, h25⟩, ⟨h34, h35⟩, h45⟩ := hnd
    refine ⟨?_, ?_, ?_, ?_, ?_⟩
    · unfold join_queue
      rw [if_neg (List.not_mem_nil p1)]
      exact join_drain_small [p1] (by simp [MATCH_SIZE])
    · unfold join_queue
      rw [if_neg (by simp [Ne.symm h12])]
      exact join_drain_small [p1, p2] (by simp [MATCH_SIZE])
    · unfold join_queue
      rw [if_neg (by simp [Ne.symm h13, Ne.symm h23])]
      exact join_drain_small [p1, p2, p3] (by simp [MATCH_SIZE])
    · unfold join_queue
      rw [if_neg (by simp [Ne.symm h14, Ne.symm h24, Ne.symm h34])]
      exact join_drain_small [p1, p2, p3, p4] (by simp [MATCH_SIZE])
    · unfold join_queue
      rw [if_neg (by simp [Ne.symm h15, Ne.symm h25, Ne.symm h35, Ne.symm h45])]
      exact join_drain_full [p1, p2, p3, p4, p5] (by simp [MATCH_SIZE])

/-- C8 witness: the theorem applied to the five distinct players 1..5 and
to a re-join of an already queued player. -/
theorem C8_witness :
    join_queue [1, 2, 3, 4] 5 = ([], some [1, 2, 3, 4, 5]) ∧
      join_queue [1] 1 = ([1], none) ∧
      (create_game_for_players d0 [1, 2, 3, 4, 5]).players = [1, 2, 3, 4, 5] :=
  ⟨(C8_matchmaking_join.2.2.2.2.2 1 2 3 4 5 (by decide)).2.2.2.2,
    C8_matchmaking_join.1 [1] 1 (by decide) (by decide),
    C8_matchmaking_join.2.2.2.2.1 d0 [1, 2, 3, 4, 5]⟩
